import Mathlib

/-!
Verification development for the `live-ai-call` repository: a bridge between a
telephony media stream (Twilio) and a realtime speech-AI session (OpenAI),
with barge-in truncation bookkeeping, incremental structured-record
extraction, and a one-time handoff of the record to a notification sink
(Slack webhook).

The repository contains four program variants:
  * `src/index.js`, first program  (here: the `VarA` machine) — structured
    record, `allConfirmed` flag, extraction on `response.output_text.delta`,
    completeness check on every AI message, partial handoff on close;
  * `src/index.js`, second program (here: the `VarB` machine) — playback /
    truncation tracking (`markQueue`, `latestMediaTimestamp`,
    `lastAssistantItem`, `responseStartTimestampTwilio`), no record;
  * `src/unnamed/part_000`         (here: the `P0` machine) — structured
    record with `allConfirmed`, completion checked only on
    `response.completed`, close handler performs no handoff;
  * `src/unnamed/part_001`         (here: the `P1` machine) — playback
    tracking identical to `VarB` plus an unguarded `response.completed`
    handler that merges `msg.content[0]?.text` and notifies Slack each time.

JavaScript values flowing through `JSON.parse` / object spread / truthiness
tests are embedded as `JsVal`.  Two deliberate restrictions of the embedding,
neither of which any claim depends on: JSON numbers are modelled as integers
(the embedded parser rejects fractional literals), and JSON values are flat —
objects and arrays contain only primitive values (the structured record and
every fragment the program is specified to handle are flat objects of
strings).  `process.exit` at startup is modelled as a Boolean "the process
exits" result, and `console` logging is not modelled.
-/

/-- Embedded primitive JavaScript/JSON value. -/
inductive JsVal where
  | jnull : JsVal
  | jbool (b : Bool) : JsVal
  | jnum (n : Int) : JsVal
  | jstr (s : String) : JsVal
deriving DecidableEq

/-- Embedded JSON value as produced by `JSON.parse`: a primitive, an array of
primitives, or a flat object. -/
inductive JsTop where
  | jprim (v : JsVal) : JsTop
  | jarr (elems : List JsVal) : JsTop
  | jobj (fields : List (String × JsVal)) : JsTop
deriving DecidableEq

/-- JavaScript truthiness of a primitive value (`if (v)`, `f => f`). -/
def truthy : JsVal → Bool
  | .jnull => false
  | .jbool b => b
  | .jnum n => n != 0
  | .jstr s => s != ""

/-- First-match association lookup, the embedding of JS property access on
objects represented as insertion-ordered key/value lists. -/
def jsLookup (k : String) (u : List (String × JsVal)) : Option JsVal :=
  List.lookup k u

/-- `jsOr a b` is `a` when `a` is `some`, otherwise `b`. -/
def jsOr (a b : Option JsVal) : Option JsVal :=
  match a with
  | some v => some v
  | none => b

/-- JSON whitespace characters (also the characters relevant to
`String.prototype.trim` on the program's fragments). -/
def isWsChar (c : Char) : Bool :=
  c == ' ' || c == '\t' || c == '\n' || c == '\r'

/-- Skip JSON whitespace. -/
def skipWs : List Char → List Char
  | [] => []
  | c :: cs => if isWsChar c then skipWs cs else c :: cs

/-- Embedding of `String.prototype.trim`: drop leading and trailing
whitespace. -/
def jsTrim (s : String) : String :=
  String.mk ((skipWs (skipWs s.data).reverse).reverse)

/-- Embedding of `String.prototype.startsWith`. -/
def strStartsWith (s pre : String) : Bool :=
  pre.data.isPrefixOf s.data

/-- Embedding of `String.prototype.endsWith`. -/
def strEndsWith (s suf : String) : Bool :=
  suf.data.reverse.isPrefixOf s.data.reverse

/-- Hexadecimal digit value. -/
def hexDigit (c : Char) : Option Nat :=
  if '0' ≤ c ∧ c ≤ '9' then some (c.toNat - 48)
  else if 'a' ≤ c ∧ c ≤ 'f' then some (c.toNat - 87)
  else if 'A' ≤ c ∧ c ≤ 'F' then some (c.toNat - 55)
  else none

/-- Parse the body of a JSON string literal (after the opening quote),
accumulating characters in reverse. -/
def parseStrAux : List Char → List Char → Option (String × List Char)
  | _, [] => none
  | acc, c :: cs =>
    if c = '"' then some (String.mk acc.reverse, cs)
    else if c = '\\' then
      match cs with
      | [] => none
      | e :: cs2 =>
        if e = '"' then parseStrAux ('"' :: acc) cs2
        else if e = '\\' then parseStrAux ('\\' :: acc) cs2
        else if e = '/' then parseStrAux ('/' :: acc) cs2
        else if e = 'n' then parseStrAux ('\n' :: acc) cs2
        else if e = 't' then parseStrAux ('\t' :: acc) cs2
        else if e = 'r' then parseStrAux ('\r' :: acc) cs2
        else if e = 'b' then parseStrAux (Char.ofNat 8 :: acc) cs2
        else if e = 'f' then parseStrAux (Char.ofNat 12 :: acc) cs2
        else if e = 'u' then
          match cs2 with
          | h1 :: h2 :: h3 :: h4 :: cs3 =>
            match hexDigit h1, hexDigit h2, hexDigit h3, hexDigit h4 with
            | some a, some b, some c3, some d4 =>
              parseStrAux (Char.ofNat (((a * 16 + b) * 16 + c3) * 16 + d4) :: acc) cs3
            | _, _, _, _ => none
          | _ => none
        else none
    else parseStrAux (c :: acc) cs

/-- Consume a run of decimal digits, extending the accumulator. -/
def parseDigitsAux : List Char → Nat → Nat × List Char
  | [], acc => (acc, [])
  | c :: cs, acc =>
    if c.isDigit then parseDigitsAux cs (acc * 10 + (c.toNat - 48)) else (acc, c :: cs)

/-- Parse a JSON integer literal (sign and digits; leading zeros rejected as
in JSON; fractional and exponent parts rejected, see the module comment). -/
def parseNum (cs0 : List Char) : Option (JsVal × List Char) :=
  let go : List Char → Option (Int × List Char) := fun ds =>
    match ds with
    | [] => none
    | d :: ds2 =>
      if d.isDigit then
        if d == '0' && (match ds2 with | d2 :: _ => d2.isDigit | [] => false) then none
        else
          let p := parseDigitsAux ds2 (d.toNat - 48)
          match p.2 with
          | r :: _ => if r == '.' || r == 'e' || r == 'E' then none else some ((p.1 : Int), p.2)
          | [] => some ((p.1 : Int), [])
      else none
  match cs0 with
  | [] => none
  | c :: cs =>
    if c = '-' then (go cs).map (fun p => (JsVal.jnum (-p.1), p.2))
    else (go (c :: cs)).map (fun p => (JsVal.jnum p.1, p.2))

/-- Parse a primitive JSON value (no surrounding whitespace handling). -/
def parsePrim (cs : List Char) : Option (JsVal × List Char) :=
  match cs with
  | 'n' :: 'u' :: 'l' :: 'l' :: rest => some (.jnull, rest)
  | 't' :: 'r' :: 'u' :: 'e' :: rest => some (.jbool true, rest)
  | 'f' :: 'a' :: 'l' :: 's' :: 'e' :: rest => some (.jbool false, rest)
  | '"' :: rest => (parseStrAux [] rest).map (fun p => (JsVal.jstr p.1, p.2))
  | cs2 => parseNum cs2

/-- Insert a parsed object member: JS object semantics keep the position of
the first occurrence of a duplicated key but let the later value win. -/
def objInsert (acc : List (String × JsVal)) (k : String) (v : JsVal) :
    List (String × JsVal) :=
  if (List.lookup k acc).isSome then
    acc.map (fun kv => if kv.1 = k then (k, v) else kv)
  else acc ++ [(k, v)]

/-- Parse the members of a JSON object after at least one member is known to
follow (fuel-indexed; every iteration consumes at least one character). -/
def parseMembersLoop : Nat → List Char → List (String × JsVal) →
    Option (List (String × JsVal) × List Char)
  | 0, _, _ => none
  | Nat.succ f, cs, acc =>
    match skipWs cs with
    | '"' :: r1 =>
      match parseStrAux [] r1 with
      | none => none
      | some (k, r2) =>
        match skipWs r2 with
        | ':' :: r3 =>
          match parsePrim (skipWs r3) with
          | none => none
          | some (v, r4) =>
            let acc2 := objInsert acc k v
            match skipWs r4 with
            | ',' :: r5 => parseMembersLoop f r5 acc2
            | '}' :: r5 => some (acc2, r5)
            | _ => none
        | _ => none
    | _ => none

/-- Parse the elements of a JSON array after at least one element is known to
follow (fuel-indexed). -/
def parseElemsLoop : Nat → List Char → List JsVal →
    Option (List JsVal × List Char)
  | 0, _, _ => none
  | Nat.succ f, cs, acc =>
    match parsePrim (skipWs cs) with
    | none => none
    | some (v, r1) =>
      match skipWs r1 with
      | ',' :: r2 => parseElemsLoop f r2 (acc ++ [v])
      | ']' :: r2 => some (acc ++ [v], r2)
      | _ => none

/-- Embedding of `JSON.parse`: parse a complete JSON text, allowing
surrounding whitespace and rejecting trailing garbage.  The fuel
`s.length + 4` is ample: every loop iteration consumes at least one input
character. -/
def parseJson (s : String) : Option JsTop :=
  let finish : Option (JsTop × List Char) → Option JsTop := fun r =>
    match r with
    | some (v, rest) => if skipWs rest = [] then some v else none
    | none => none
  match skipWs s.data with
  | '{' :: rest =>
    (match skipWs rest with
     | '}' :: rest2 => finish (some (.jobj [], rest2))
     | cs2 => finish ((parseMembersLoop (s.length + 4) cs2 []).map
         (fun p => (JsTop.jobj p.1, p.2))))
  | '[' :: rest =>
    (match skipWs rest with
     | ']' :: rest2 => finish (some (.jarr [], rest2))
     | cs2 => finish ((parseElemsLoop (s.length + 4) cs2 []).map
         (fun p => (JsTop.jarr p.1, p.2))))
  | cs2 => finish ((parsePrim cs2).map (fun p => (JsTop.jprim p.1, p.2)))

/-- The own enumerable key/value pairs contributed by a value under JS object
spread `\x7b...u, ...v\x7d`: objects contribute their fields, arrays and
strings contribute index-keyed entries, other primitives contribute
nothing. -/
def spreadFields : JsTop → List (String × JsVal)
  | .jobj fs => fs
  | .jarr xs => xs.enum.map (fun p => (toString p.1, p.2))
  | .jprim (.jstr s) =>
      s.data.enum.map (fun p => (toString p.1, JsVal.jstr (String.mk [p.2])))
  | .jprim _ => []

/-- Embedding of the JS object spread `\x7b ...u, ...p \x7d`: the keys of `u`
keep their positions (values overridden by `p` where present), and the keys
of `p` not already in `u` are appended in order. -/
def spreadMerge (u p : List (String × JsVal)) : List (String × JsVal) :=
  u.map (fun kv =>
    match List.lookup kv.1 p with
    | some v => (kv.1, v)
    | none => kv)
  ++ p.filter (fun kv => (List.lookup kv.1 u).isNone)

/-- The five fixed keys of the structured record. -/
def recognizedKeys : List String := ["name", "email", "problem", "time", "tcp"]

/-- `userData` as initialised in the source: the five keys, all `null`. -/
def initUserData : List (String × JsVal) :=
  [("name", .jnull), ("email", .jnull), ("problem", .jnull), ("time", .jnull),
   ("tcp", .jnull)]

/-- Embedding of `Object.values(userData).every(f => f)`: every value
currently in the record is truthy. -/
def allFilled (u : List (String × JsVal)) : Bool :=
  (u.map Prod.snd).all truthy

/-- Embedding of `Object.values(userData).some(f => f)`: some value currently
in the record is truthy. -/
def anyTruthy (u : List (String × JsVal)) : Bool :=
  (u.map Prod.snd).any truthy

/-- Modelled from the spec: the record is complete when each of the five
fixed keys holds a non-empty (truthy) value.  This is the spec's wording of
completeness, to be compared with the source's `allFilled`. -/
def specFiveFilled (u : List (String × JsVal)) : Bool :=
  recognizedKeys.all (fun k => truthy ((jsLookup k u).getD .jnull))

/-- Fold a list of extraction results into the record, left to right
(the sequence of `userData = \x7b...userData, ...parsed\x7d` updates). -/
def mergeAll (u : List (String × JsVal)) (os : List (List (String × JsVal))) :
    List (String × JsVal) :=
  os.foldl spreadMerge u

/-- The last value written for a key across a sequence of merged objects
(later objects override earlier ones). -/
def lastWrite (k : String) : List (List (String × JsVal)) → Option JsVal
  | [] => none
  | o :: rest => jsOr (lastWrite k rest) (jsLookup k o)

/-- Modelled from the spec: at least one of the five fixed fields holds a
non-empty (truthy) value. -/
def specAnyFiveSet (u : List (String × JsVal)) : Bool :=
  recognizedKeys.any (fun k => truthy ((jsLookup k u).getD .jnull))

/-- The brace guard of the incremental extractor: the whitespace-trimmed
fragment must begin with an opening brace and end with a closing brace. -/
def jsonGuard (s : String) : Bool :=
  let t := jsTrim s
  strStartsWith t "\x7b" && strEndsWith t "\x7d"

/-- Embedding of the `response.output_text.delta` extractor shared by the
first `index.js` program (lines 116-126) and `part_000` (lines 122-135):
trim the fragment, check the brace guard, `JSON.parse` it, and on success
spread-merge the parsed value into `userData`; on guard or parse failure the
record is unchanged. -/
def extractDelta (delta : String) (u : List (String × JsVal)) :
    List (String × JsVal) :=
  let t := jsTrim delta
  if strStartsWith t "\x7b" && strEndsWith t "\x7d" then
    match parseJson t with
    | some v => spreadMerge u (spreadFields v)
    | none => u
  else u

/-! ## Playback/truncation tracker (shared by the second `index.js` program
and `part_001`, whose handlers are textually identical) -/

/-- Per-session playback bookkeeping: `latestMediaTimestamp`,
`lastAssistantItem`, `markQueue`, `responseStartTimestampTwilio`, named as in
the source. -/
structure Playback where
  latestMediaTimestamp : Int
  lastAssistantItem : Option String
  markQueue : List String
  responseStartTimestampTwilio : Option Int
deriving DecidableEq

/-- Initial playback state (`0`, `null`, `[]`, `null`). -/
def initPlayback : Playback :=
  { latestMediaTimestamp := 0, lastAssistantItem := none, markQueue := [],
    responseStartTimestampTwilio := none }

/-- JS truthiness of the recorded playback-start timestamp: `null` and `0`
are both falsy (`if (!responseStartTimestampTwilio)`). -/
def tsRecorded : Option Int → Bool
  | none => false
  | some n => n != 0

/-- JS truthiness of the stored item id: `null` and the empty string are
falsy (`if (lastAssistantItem)`, `if (msg.item_id)`). -/
def itemTruthy : Option String → Bool
  | none => false
  | some s => s != ""

/-- A `conversation.item.truncate` instruction sent to the AI session. -/
structure TruncMsg where
  item_id : String
  content_index : Nat
  audio_end_ms : Int
deriving DecidableEq

/-- Playback bookkeeping of the `response.output_audio.delta` handler
(`part_001` lines 154-155, `index.js` lines 316-317): record the playback
start if the stored value is falsy, and record a truthy item id. -/
def audioDeltaTrack (pb : Playback) (itemId : Option String) : Playback :=
  let pb1 :=
    if tsRecorded pb.responseStartTimestampTwilio then pb
    else { pb with responseStartTimestampTwilio := some pb.latestMediaTimestamp }
  if itemTruthy itemId then { pb1 with lastAssistantItem := itemId } else pb1

/-- The `input_audio_buffer.speech_started` handler (`part_001` lines
185-202, `index.js` lines 320-337): when the mark queue is non-empty and the
playback-start timestamp is truthy, emit a truncate instruction for a truthy
active item id with `content_index` 0 and `audio_end_ms` the elapsed
playback, then clear the queue, item id and playback start. -/
def speechStartedStep (pb : Playback) : Playback × List TruncMsg :=
  if !pb.markQueue.isEmpty && tsRecorded pb.responseStartTimestampTwilio then
    let elapsed := pb.latestMediaTimestamp - (pb.responseStartTimestampTwilio.getD 0)
    let outs :=
      match pb.lastAssistantItem with
      | some s => if s != "" then [⟨s, 0, elapsed⟩] else []
      | none => []
    ({ pb with markQueue := [],
               lastAssistantItem := none,
               responseStartTimestampTwilio := none }, outs)
  else (pb, [])

/-- The `mark` case of the Twilio handler: pop one entry if the queue is
non-empty (`if (markQueue.length > 0) markQueue.shift()`). -/
def markStep (pb : Playback) : Playback :=
  if pb.markQueue.isEmpty then pb else { pb with markQueue := pb.markQueue.tail }

/-- The playback part of the `start` case: `latestMediaTimestamp = 0` and
`responseStartTimestampTwilio = null`; the item id and the mark queue are not
touched by the source. -/
def startResetPb (pb : Playback) : Playback :=
  { pb with latestMediaTimestamp := 0, responseStartTimestampTwilio := none }

/-! ## The `VarB` machine: second program of `src/index.js` (lines 264-378) -/

structure BState where
  streamSid : Option String
  pb : Playback
  aiOpen : Bool
deriving DecidableEq

def initB : BState := { streamSid := none, pb := initPlayback, aiOpen := true }

inductive BEvent where
  | aiAudioDelta (delta : String) (itemId : Option String)
  | aiSpeechStarted
  | aiOther (ty : String)
  | twStart (sid : String)
  | twMedia (payload : String) (timestamp : Int)
  | twMark
  | twOther (ev : String)
  | twClose
deriving DecidableEq

inductive BOut where
  | mediaToCaller (sid : Option String) (payload : String)
  | appendToAI (payload : String)
  | truncateToAI (m : TruncMsg)
  | closeAI
deriving DecidableEq

/-- One event of the `VarB` session (second `index.js` program): the
`openAiWs.on('message')` and `connection.on('message')` / `on('close')`
handlers. -/
def stepB (σ : BState) : BEvent → BState × List BOut
  | .aiAudioDelta d i =>
    if d ≠ "" then
      ({ σ with pb := audioDeltaTrack σ.pb i }, [.mediaToCaller σ.streamSid d])
    else (σ, [])
  | .aiSpeechStarted =>
    let r := speechStartedStep σ.pb
    ({ σ with pb := r.1 }, r.2.map .truncateToAI)
  | .aiOther _ => (σ, [])
  | .twStart sid =>
    ({ σ with streamSid := some sid, pb := startResetPb σ.pb }, [])
  | .twMedia p t =>
    ({ σ with pb := { σ.pb with latestMediaTimestamp := t } },
     if σ.aiOpen then [.appendToAI p] else [])
  | .twMark => ({ σ with pb := markStep σ.pb }, [])
  | .twOther _ => (σ, [])
  | .twClose => ({ σ with aiOpen := false }, if σ.aiOpen then [.closeAI] else [])

/-- Run a `VarB` session from a state, collecting outputs in order. -/
def runB : BState → List BEvent → BState × List BOut
  | σ, [] => (σ, [])
  | σ, e :: es =>
    let r1 := stepB σ e
    let r2 := runB r1.1 es
    (r2.1, r1.2 ++ r2.2)

/-- The truncate instructions among `VarB` outputs. -/
def truncOutsB (outs : List BOut) : List TruncMsg :=
  outs.filterMap (fun o => match o with | .truncateToAI m => some m | _ => none)

/-! ## The `P1` machine: `src/unnamed/part_001` -/

structure P1State where
  streamSid : Option String
  pb : Playback
  userData : List (String × JsVal)
  aiOpen : Bool
deriving DecidableEq

def initP1 : P1State :=
  { streamSid := none, pb := initPlayback, userData := initUserData, aiOpen := true }

inductive P1Event where
  | aiAudioDelta (delta : String) (itemId : Option String)
  | aiCompleted (hasContent : Bool) (firstText : Option String)
  | aiSpeechStarted
  | aiOther (ty : String)
  | twStart (sid : String)
  | twMedia (payload : String) (timestamp : Int)
  | twMark
  | twOther (ev : String)
  | twClose
deriving DecidableEq

inductive P1Out where
  | mediaToCaller (sid : Option String) (payload : String)
  | farewellToCaller
  | appendToAI (payload : String)
  | truncateToAI (m : TruncMsg)
  | slackNotify (record : List (String × JsVal))
  | scheduleClose (ms : Nat)
  | closeAI
deriving DecidableEq

/-- One event of the `part_001` session.  Its `response.completed` handler
(lines 159-183) parses `msg.content[0]?.text || '\x7b\x7d'`, merges the
result into `userData`, and unconditionally notifies Slack, sends the
farewell and schedules the 2-second close; a parse failure is caught and
nothing happens.  `hasContent` is the truthiness of `msg.content`,
`firstText` is `msg.content[0]?.text`. -/
def stepP1 (σ : P1State) : P1Event → P1State × List P1Out
  | .aiAudioDelta d i =>
    if d ≠ "" then
      ({ σ with pb := audioDeltaTrack σ.pb i }, [.mediaToCaller σ.streamSid d])
    else (σ, [])
  | .aiCompleted hc txt =>
    if hc then
      let t := match txt with
        | some s => if s ≠ "" then s else "\x7b\x7d"
        | none => "\x7b\x7d"
      match parseJson t with
      | some v =>
        let u1 := spreadMerge σ.userData (spreadFields v)
        ({ σ with userData := u1 },
         [.slackNotify u1, .farewellToCaller, .scheduleClose 2000])
      | none => (σ, [])
    else (σ, [])
  | .aiSpeechStarted =>
    let r := speechStartedStep σ.pb
    ({ σ with pb := r.1 }, r.2.map .truncateToAI)
  | .aiOther _ => (σ, [])
  | .twStart sid =>
    ({ σ with streamSid := some sid, pb := startResetPb σ.pb }, [])
  | .twMedia p t =>
    ({ σ with pb := { σ.pb with latestMediaTimestamp := t } },
     if σ.aiOpen then [.appendToAI p] else [])
  | .twMark => ({ σ with pb := markStep σ.pb }, [])
  | .twOther _ => (σ, [])
  | .twClose => ({ σ with aiOpen := false }, if σ.aiOpen then [.closeAI] else [])

/-- Run a `part_001` session from a state, collecting outputs in order. -/
def runP1 : P1State → List P1Event → P1State × List P1Out
  | σ, [] => (σ, [])
  | σ, e :: es =>
    let r1 := stepP1 σ e
    let r2 := runP1 r1.1 es
    (r2.1, r1.2 ++ r2.2)

/-- The truncate instructions among `part_001` outputs. -/
def truncOutsP1 (outs : List P1Out) : List TruncMsg :=
  outs.filterMap (fun o => match o with | .truncateToAI m => some m | _ => none)

/-- The number of Slack notifications among `part_001` outputs. -/
def countSlackP1 (outs : List P1Out) : Nat :=
  (outs.filter (fun o => match o with | .slackNotify _ => true | _ => false)).length

/-! ## The `VarA` machine: first program of `src/index.js` (lines 73-185) -/

structure AState where
  streamSid : Option String
  userData : List (String × JsVal)
  allConfirmed : Bool
  aiOpen : Bool
deriving DecidableEq

def initA : AState :=
  { streamSid := none, userData := initUserData, allConfirmed := false, aiOpen := true }

inductive AEvent where
  | aiMsg (ty : String) (delta : Option String)
  | twStart (sid : String)
  | twMedia (payload : String)
  | twOther (ev : String)
  | twClose
deriving DecidableEq

inductive AOut where
  | mediaToCaller (sid : Option String) (payload : String)
  | farewellToCaller
  | appendToAI (payload : String)
  | slackNotify (record : List (String × JsVal))
  | scheduleClose (ms : Nat)
  | closeAI
deriving DecidableEq

/-- JS truthiness of `msg.delta`. -/
def deltaTruthy : Option String → Bool
  | none => false
  | some s => s != ""

/-- One event of the `VarA` session (first `index.js` program).  An AI
message forwards a truthy audio delta, feeds a truthy text delta to the
extractor, and then — for every message type — runs the completeness check
guarded by `!allConfirmed` (lines 129-147): when every record value is
truthy, set the flag, notify Slack, send the farewell and schedule the
2-second close.  The close handler (lines 173-180) performs the partial
handoff when the flag is unset and some record value is truthy. -/
def stepA (σ : AState) : AEvent → AState × List AOut
  | .aiMsg ty d =>
    let outsAudio :=
      if ty = "response.output_audio.delta" ∧ deltaTruthy d = true then
        [AOut.mediaToCaller σ.streamSid (d.getD "")]
      else []
    let u1 :=
      if ty = "response.output_text.delta" ∧ deltaTruthy d = true then
        extractDelta (d.getD "") σ.userData
      else σ.userData
    if σ.allConfirmed = false ∧ allFilled u1 = true then
      ({ σ with userData := u1, allConfirmed := true },
       outsAudio ++ [AOut.slackNotify u1, AOut.farewellToCaller, AOut.scheduleClose 2000])
    else ({ σ with userData := u1 }, outsAudio)
  | .twStart sid => ({ σ with streamSid := some sid }, [])
  | .twMedia p => (σ, if σ.aiOpen then [AOut.appendToAI p] else [])
  | .twOther _ => (σ, [])
  | .twClose =>
    let partOuts :=
      if σ.allConfirmed = false ∧ anyTruthy σ.userData = true then
        [AOut.slackNotify σ.userData]
      else []
    ({ σ with aiOpen := false }, partOuts ++ if σ.aiOpen then [AOut.closeAI] else [])

/-- Run a `VarA` session from a state, collecting outputs in order. -/
def runA : AState → List AEvent → AState × List AOut
  | σ, [] => (σ, [])
  | σ, e :: es =>
    let r1 := stepA σ e
    let r2 := runA r1.1 es
    (r2.1, r1.2 ++ r2.2)

/-- The number of Slack notifications among `VarA` outputs. -/
def countSlackA (outs : List AOut) : Nat :=
  (outs.filter (fun o => match o with | .slackNotify _ => true | _ => false)).length

/-- Whether a `VarA` output is a farewell payload or a scheduled delayed
close (the completion-path actions). -/
def farewellOrScheduleA : AOut → Bool
  | .farewellToCaller => true
  | .scheduleClose _ => true
  | _ => false

/-! ## The `P0` machine: `src/unnamed/part_000` -/

structure P0State where
  streamSid : Option String
  latestMediaTimestamp : Int
  userData : List (String × JsVal)
  allConfirmed : Bool
  aiOpen : Bool
deriving DecidableEq

def initP0 : P0State :=
  { streamSid := none, latestMediaTimestamp := 0, userData := initUserData,
    allConfirmed := false, aiOpen := true }

inductive P0Event where
  | aiMsg (ty : String) (delta : Option String)
  | twStart (sid : String)
  | twMedia (payload : String) (timestamp : Int)
  | twOther (ev : String)
  | twClose
deriving DecidableEq

inductive P0Out where
  | mediaToCaller (sid : Option String) (payload : String)
  | farewellToCaller
  | appendToAI (payload : String)
  | slackNotify (record : List (String × JsVal))
  | scheduleClose (ms : Nat)
  | closeAI
deriving DecidableEq

/-- One event of the `part_000` session.  Extraction happens on
`response.output_text.delta`; the completeness check runs only on
`response.completed` with `!allConfirmed` (lines 138-156); the close handler
(lines 181-184) only closes the AI connection and performs no handoff.
`part_000` declares `lastAssistantItem` and `responseStartTimestampTwilio`
but never assigns them, so they are omitted here. -/
def stepP0 (σ : P0State) : P0Event → P0State × List P0Out
  | .aiMsg ty d =>
    let outsAudio :=
      if ty = "response.output_audio.delta" ∧ deltaTruthy d = true then
        [P0Out.mediaToCaller σ.streamSid (d.getD "")]
      else []
    let u1 :=
      if ty = "response.output_text.delta" ∧ deltaTruthy d = true then
        extractDelta (d.getD "") σ.userData
      else σ.userData
    if ty = "response.completed" ∧ σ.allConfirmed = false ∧ allFilled u1 = true then
      ({ σ with userData := u1, allConfirmed := true },
       outsAudio ++ [P0Out.slackNotify u1, P0Out.farewellToCaller, P0Out.scheduleClose 2000])
    else ({ σ with userData := u1 }, outsAudio)
  | .twStart sid => ({ σ with streamSid := some sid }, [])
  | .twMedia p t =>
    ({ σ with latestMediaTimestamp := t },
     if σ.aiOpen then [P0Out.appendToAI p] else [])
  | .twOther _ => (σ, [])
  | .twClose => ({ σ with aiOpen := false }, if σ.aiOpen then [P0Out.closeAI] else [])

/-- Run a `part_000` session from a state, collecting outputs in order. -/
def runP0 : P0State → List P0Event → P0State × List P0Out
  | σ, [] => (σ, [])
  | σ, e :: es =>
    let r1 := stepP0 σ e
    let r2 := runP0 r1.1 es
    (r2.1, r1.2 ++ r2.2)

/-- The number of Slack notifications among `part_000` outputs. -/
def countSlackP0 (outs : List P0Out) : Nat :=
  (outs.filter (fun o => match o with | .slackNotify _ => true | _ => false)).length

/-! ## Startup configuration checks -/

/-- JS truthiness of an environment variable (`undefined` and the empty
string are falsy). -/
def optTruthy : Option String → Bool
  | none => false
  | some s => s != ""

/-- Startup check of the first `index.js` program (lines 10-14): exit when
`OPENAI_API_KEY` or `SLACK_WEBHOOK_URL` is falsy (`part_000` lines 10-14 are
identical). -/
def startupFatalVarA (key hook : Option String) : Bool :=
  !optTruthy key || !optTruthy hook

/-- Startup check of `part_001` (lines 10-18): two sequential exits, one per
missing variable. -/
def startupFatalP1 (key hook : Option String) : Bool :=
  if !optTruthy key then true
  else if !optTruthy hook then true
  else false

/-- Startup check of the second `index.js` program (lines 199-203): only
`OPENAI_API_KEY` is required; the notification URL is not read. -/
def startupFatalVarB (key _hook : Option String) : Bool :=
  !optTruthy key

/-! ## Lemmas about lookup, spread merge and the completeness judgment -/

/-- Looking up a key in an appended association list tries the left list
first. -/
theorem lookup_append (k : String) (l1 l2 : List (String × JsVal)) :
    List.lookup k (l1 ++ l2) = jsOr (List.lookup k l1) (List.lookup k l2) := by
  induction l1 with
  | nil => simp [jsOr]
  | cons kv l ih =>
    by_cases h : k = kv.1
    · subst h
      simp [List.lookup, jsOr]
    · have hb : (k == kv.1) = false := by simp [h]
      simpa [List.lookup, hb] using ih

/-- Looking up a key in the overridden part of a spread merge: present keys
keep their positions, values overridden by the right operand where it has
the key. -/
theorem lookup_map_override (k : String) (u p : List (String × JsVal)) :
    List.lookup k (u.map (fun kv =>
        match List.lookup kv.1 p with
        | some v => (kv.1, v)
        | none => kv)) =
      match List.lookup k u with
      | none => none
      | some v => jsOr (List.lookup k p) (some v) := by
  induction u with
  | nil => simp
  | cons kv l ih =>
    by_cases h : k = kv.1
    · subst h
      cases hp : List.lookup kv.1 p <;>
        simp [List.lookup, hp, jsOr]
    · have hb : (k == kv.1) = false := by simp [h]
      cases hp : List.lookup kv.1 p <;>
        simpa [List.lookup, hp, hb] using ih

/-- Looking up a key in the appended part of a spread merge: new keys of the
right operand are found exactly when the key is absent from the left
operand. -/
theorem lookup_filter_new (k : String) (u p : List (String × JsVal)) :
    List.lookup k (p.filter (fun kv => (List.lookup kv.1 u).isNone)) =
      if (List.lookup k u).isNone then List.lookup k p else none := by
  induction p with
  | nil => simp
  | cons kv l ih =>
    by_cases h : k = kv.1
    · subst h
      cases hu : (List.lookup kv.1 u).isNone <;>
        simp [List.filter_cons, List.lookup, hu, ih]
    · have hb : (k == kv.1) = false := by simp [h]
      cases hpred : (List.lookup kv.1 u).isNone <;>
        simp [List.filter_cons, List.lookup, hpred, hb, ih]

/-- Property lookup after a JS object spread: the right operand wins, the
left operand is the fallback. -/
theorem lookup_spreadMerge (k : String) (u p : List (String × JsVal)) :
    List.lookup k (spreadMerge u p) = jsOr (List.lookup k p) (List.lookup k u) := by
  unfold spreadMerge
  rw [lookup_append, lookup_map_override, lookup_filter_new]
  cases hu : List.lookup k u <;> cases hp : List.lookup k p <;> simp [hu, hp, jsOr]

/-- The overridden part of a spread merge does not change the key list. -/
theorem keys_map_override (u p : List (String × JsVal)) :
    (u.map (fun kv =>
        match List.lookup kv.1 p with
        | some v => (kv.1, v)
        | none => kv)).map Prod.fst = u.map Prod.fst := by
  induction u with
  | nil => rfl
  | cons kv l ih =>
    cases hp : List.lookup kv.1 p <;> simp [hp, ih]

/-- A key present in an association list is found by lookup. -/
theorem lookup_isSome_of_mem_keys (k : String) (u : List (String × JsVal))
    (h : k ∈ u.map Prod.fst) : (List.lookup k u).isSome = true := by
  induction u with
  | nil => simp at h
  | cons kv l ih =>
    by_cases hk : k = kv.1
    · subst hk
      simp [List.lookup]
    · have hb : (k == kv.1) = false := by simp [hk]
      have hmem : k ∈ l.map Prod.fst := by
        rcases List.mem_cons.mp h with h1 | h1
        · exact absurd h1 hk
        · exact h1
      simpa [List.lookup, hb] using ih hmem

/-- When every key of the right operand already occurs in the left operand,
a spread merge keeps exactly the left operand's key list. -/
theorem keys_spreadMerge (u p : List (String × JsVal))
    (h : ∀ kv ∈ p, kv.1 ∈ u.map Prod.fst) :
    (spreadMerge u p).map Prod.fst = u.map Prod.fst := by
  unfold spreadMerge
  have hfil : p.filter (fun kv => (List.lookup kv.1 u).isNone) = [] := by
    refine List.filter_eq_nil_iff.mpr ?_
    intro kv hkv
    have hs := lookup_isSome_of_mem_keys kv.1 u (h kv hkv)
    cases hl : List.lookup kv.1 u with
    | none => rw [hl] at hs; cases hs
    | some v => simp [hl]
  rw [hfil, List.append_nil, keys_map_override]

theorem jsOr_assoc (a b c : Option JsVal) :
    jsOr (jsOr a b) c = jsOr a (jsOr b c) := by
  cases a <;> simp [jsOr]

/-- Last-write-wins: after merging a sequence of objects, the value at each
key is the last value written for it, with the original record as
fallback. -/
theorem lookup_mergeAll (k : String) (os : List (List (String × JsVal))) :
    ∀ u, List.lookup k (mergeAll u os) = jsOr (lastWrite k os) (List.lookup k u) := by
  induction os with
  | nil => intro u; simp [mergeAll, lastWrite, jsOr]
  | cons o rest ih =>
    intro u
    have : mergeAll u (o :: rest) = mergeAll (spreadMerge u o) rest := rfl
    rw [this, ih (spreadMerge u o), lookup_spreadMerge, lastWrite, ← jsOr_assoc]
    rfl

/-- Merging objects whose keys are all already present does not change the
record's key list. -/
theorem keys_mergeAll (os : List (List (String × JsVal))) :
    ∀ u, (∀ o ∈ os, ∀ kv ∈ o, kv.1 ∈ u.map Prod.fst) →
      (mergeAll u os).map Prod.fst = u.map Prod.fst := by
  induction os with
  | nil => intro u _; rfl
  | cons o rest ih =>
    intro u h
    have h0 : ∀ kv ∈ o, kv.1 ∈ u.map Prod.fst := h o (by simp)
    have hk : (spreadMerge u o).map Prod.fst = u.map Prod.fst := keys_spreadMerge u o h0
    have : mergeAll u (o :: rest) = mergeAll (spreadMerge u o) rest := rfl
    rw [this, ih (spreadMerge u o) ?_, hk]
    intro o2 ho2 kv hkv
    rw [hk]
    exact h o2 (by simp [ho2]) kv hkv

/-- Pointwise-equal predicates give the same `List.all`. -/
theorem all_congr_mem {α : Type} (l : List α) (f g : α → Bool)
    (h : ∀ x ∈ l, f x = g x) : l.all f = l.all g := by
  induction l with
  | nil => rfl
  | cons x xs ih =>
    simp only [List.all_cons, h x (by simp)]
    rw [ih (fun y hy => h y (by simp [hy]))]

/-- On an association list with distinct keys, checking all values equals
checking the looked-up value of every key. -/
theorem all_values_eq_all_keys (p : JsVal → Bool) :
    ∀ u : List (String × JsVal), (u.map Prod.fst).Nodup →
      (u.map Prod.snd).all p =
        (u.map Prod.fst).all (fun k => p ((List.lookup k u).getD .jnull)) := by
  intro u
  induction u with
  | nil => intro _; rfl
  | cons kv l ih =>
    intro hnd
    have hnd2 : (l.map Prod.fst).Nodup := (List.nodup_cons.mp hnd).2
    have hni : kv.1 ∉ l.map Prod.fst := (List.nodup_cons.mp hnd).1
    have hhead : List.lookup kv.1 ((kv.1, kv.2) :: l) = some kv.2 := by
      simp [List.lookup]
    have htail : ∀ k ∈ l.map Prod.fst,
        (fun k => p ((List.lookup k ((kv.1, kv.2) :: l)).getD .jnull)) k =
        (fun k => p ((List.lookup k l).getD .jnull)) k := by
      intro k hk
      have hne : k ≠ kv.1 := fun he => hni (he ▸ hk)
      have hb : (k == kv.1) = false := by simp [hne]
      simp [List.lookup, hb]
    calc ((kv :: l).map Prod.snd).all p
        = (p kv.2 && (l.map Prod.snd).all p) := by simp
      _ = (p kv.2 && (l.map Prod.fst).all (fun k => p ((List.lookup k l).getD .jnull))) := by
          rw [ih hnd2]
      _ = ((kv :: l).map Prod.fst).all
            (fun k => p ((List.lookup k ((kv.1, kv.2) :: l)).getD .jnull)) := by
          simp only [List.map_cons, List.all_cons, hhead, Option.getD_some]
          rw [all_congr_mem (l.map Prod.fst) _ _ htail]

/-! ## Machine invariants -/

/-- Audio-delta tracking never touches the mark queue. -/
theorem audioDeltaTrack_markQueue (pb : Playback) (i : Option String) :
    (audioDeltaTrack pb i).markQueue = pb.markQueue := by
  simp only [audioDeltaTrack]
  split_ifs <;> rfl

/-- With an empty mark queue the speech-started handler is a no-op. -/
theorem speechStartedStep_of_empty (pb : Playback) (h : pb.markQueue = []) :
    speechStartedStep pb = (pb, []) := by
  simp [speechStartedStep, h]

/-- With an empty mark queue the mark handler is a no-op. -/
theorem markStep_of_empty (pb : Playback) (h : pb.markQueue = []) :
    markStep pb = pb := by
  simp [markStep, h]

theorem truncOutsB_append (a b : List BOut) :
    truncOutsB (a ++ b) = truncOutsB a ++ truncOutsB b := by
  simp [truncOutsB]

theorem truncOutsP1_append (a b : List P1Out) :
    truncOutsP1 (a ++ b) = truncOutsP1 a ++ truncOutsP1 b := by
  simp [truncOutsP1]

/-- No `VarB` step ever enqueues a marker, and with an empty queue no
truncate instruction is emitted. -/
theorem stepB_preserves_empty_queue (σ : BState) (e : BEvent)
    (h : σ.pb.markQueue = []) :
    (stepB σ e).1.pb.markQueue = [] ∧ truncOutsB (stepB σ e).2 = [] := by
  cases e with
  | aiAudioDelta d i =>
    by_cases hd : d = ""
    · simp [stepB, hd, truncOutsB, h]
    · simp [stepB, hd, truncOutsB, audioDeltaTrack_markQueue, h]
  | aiSpeechStarted =>
    simp [stepB, speechStartedStep_of_empty σ.pb h, truncOutsB, h]
  | aiOther ty => simp [stepB, truncOutsB, h]
  | twStart sid => simp [stepB, startResetPb, truncOutsB, h]
  | twMedia p t =>
    refine ⟨by simp [stepB, h], ?_⟩
    simp only [stepB]
    split <;> simp [truncOutsB]
  | twMark => simp [stepB, markStep_of_empty σ.pb h, truncOutsB, h]
  | twOther ev => simp [stepB, truncOutsB, h]
  | twClose =>
    refine ⟨by simp [stepB, h], ?_⟩
    simp only [stepB]
    split <;> simp [truncOutsB]

/-- Reachability invariant of `VarB`: the mark queue stays empty and no
truncate instruction is ever emitted. -/
theorem runB_empty_queue (es : List BEvent) :
    ∀ σ : BState, σ.pb.markQueue = [] →
      (runB σ es).1.pb.markQueue = [] ∧ truncOutsB (runB σ es).2 = [] := by
  induction es with
  | nil => intro σ h; exact ⟨h, rfl⟩
  | cons e es ih =>
    intro σ h
    obtain ⟨hq, ho⟩ := stepB_preserves_empty_queue σ e h
    obtain ⟨hq2, ho2⟩ := ih (stepB σ e).1 hq
    refine ⟨hq2, ?_⟩
    have hsplit : (runB σ (e :: es)).2 = (stepB σ e).2 ++ (runB (stepB σ e).1 es).2 := rfl
    rw [hsplit, truncOutsB_append, ho, ho2]
    rfl

/-- No `part_001` step ever enqueues a marker, and with an empty queue no
truncate instruction is emitted. -/
theorem stepP1_preserves_empty_queue (σ : P1State) (e : P1Event)
    (h : σ.pb.markQueue = []) :
    (stepP1 σ e).1.pb.markQueue = [] ∧ truncOutsP1 (stepP1 σ e).2 = [] := by
  cases e with
  | aiAudioDelta d i =>
    by_cases hd : d = ""
    · simp [stepP1, hd, truncOutsP1, h]
    · simp [stepP1, hd, truncOutsP1, audioDeltaTrack_markQueue, h]
  | aiCompleted hc txt =>
    simp only [stepP1]
    split
    · split <;> simp [truncOutsP1, h]
    · simp [truncOutsP1, h]
  | aiSpeechStarted =>
    simp [stepP1, speechStartedStep_of_empty σ.pb h, truncOutsP1, h]
  | aiOther ty => simp [stepP1, truncOutsP1, h]
  | twStart sid => simp [stepP1, startResetPb, truncOutsP1, h]
  | twMedia p t =>
    refine ⟨by simp [stepP1, h], ?_⟩
    simp only [stepP1]
    split <;> simp [truncOutsP1]
  | twMark => simp [stepP1, markStep_of_empty σ.pb h, truncOutsP1, h]
  | twOther ev => simp [stepP1, truncOutsP1, h]
  | twClose =>
    refine ⟨by simp [stepP1, h], ?_⟩
    simp only [stepP1]
    split <;> simp [truncOutsP1]

/-- Reachability invariant of `part_001`: the mark queue stays empty and no
truncate instruction is ever emitted. -/
theorem runP1_empty_queue (ps : List P1Event) :
    ∀ σ : P1State, σ.pb.markQueue = [] →
      (runP1 σ ps).1.pb.markQueue = [] ∧ truncOutsP1 (runP1 σ ps).2 = [] := by
  induction ps with
  | nil => intro σ h; exact ⟨h, rfl⟩
  | cons e es ih =>
    intro σ h
    obtain ⟨hq, ho⟩ := stepP1_preserves_empty_queue σ e h
    obtain ⟨hq2, ho2⟩ := ih (stepP1 σ e).1 hq
    refine ⟨hq2, ?_⟩
    have hsplit : (runP1 σ (e :: es)).2 = (stepP1 σ e).2 ++ (runP1 (stepP1 σ e).1 es).2 := rfl
    rw [hsplit, truncOutsP1_append, ho, ho2]
    rfl

/-! ## Handoff counting for the `VarA` machine -/

theorem countSlackA_append (a b : List AOut) :
    countSlackA (a ++ b) = countSlackA a + countSlackA b := by
  simp [countSlackA]

/-- Running a `VarA` session over concatenated event lists composes. -/
theorem runA_append (es1 es2 : List AEvent) :
    ∀ σ : AState, runA σ (es1 ++ es2) =
      ((runA (runA σ es1).1 es2).1, (runA σ es1).2 ++ (runA (runA σ es1).1 es2).2) := by
  induction es1 with
  | nil => intro σ; simp [runA]
  | cons e es ih =>
    intro σ
    have h1 : runA σ ((e :: es) ++ es2) =
        ((runA (stepA σ e).1 (es ++ es2)).1,
         (stepA σ e).2 ++ (runA (stepA σ e).1 (es ++ es2)).2) := rfl
    rw [h1, ih (stepA σ e).1]
    have h2 : (runA σ (e :: es)).1 = (runA (stepA σ e).1 es).1 := rfl
    have h3 : (runA σ (e :: es)).2 = (stepA σ e).2 ++ (runA (stepA σ e).1 es).2 := rfl
    rw [h2, h3, List.append_assoc]

/-- The number of Slack notifications among a conditional audio-forwarding
output is zero. -/
theorem countSlackA_media_ite (c : Prop) [Decidable c] (s : Option String) (p : String) :
    countSlackA (if c then [AOut.mediaToCaller s p] else []) = 0 := by
  split <;> rfl

/-- Bookkeeping for every non-close `VarA` event: the number of Slack
notifications it emits is exactly the rise of the `allConfirmed` flag. -/
theorem stepA_count_flag (σ : AState) (e : AEvent) (hne : e ≠ AEvent.twClose) :
    countSlackA (stepA σ e).2 + (if σ.allConfirmed then 1 else 0) =
      (if (stepA σ e).1.allConfirmed then 1 else 0) := by
  cases e with
  | aiMsg ty d =>
    simp only [stepA]
    split <;> split
    all_goals
      first
        | (rename_i hcomp
           rw [countSlackA_append, countSlackA_media_ite, hcomp.1]
           simp [countSlackA])
        | (rw [countSlackA_media_ite]; simp)
  | twStart sid => simp [stepA, countSlackA]
  | twMedia p => simp only [stepA]; split <;> simp [countSlackA]
  | twOther ev => simp [stepA, countSlackA]
  | twClose => exact absurd rfl hne

/-- Bookkeeping for a close-free `VarA` run: the total number of Slack
notifications equals the rise of the `allConfirmed` flag over the run. -/
theorem runA_count_flag (es : List AEvent) (hnc : AEvent.twClose ∉ es) :
    ∀ σ : AState,
      countSlackA (runA σ es).2 + (if σ.allConfirmed then 1 else 0) =
        (if (runA σ es).1.allConfirmed then 1 else 0) := by
  induction es with
  | nil => intro σ; simp [runA, countSlackA]
  | cons e es ih =>
    intro σ
    have hne : e ≠ AEvent.twClose := fun he => hnc (by simp [he])
    have hnc2 : AEvent.twClose ∉ es := fun hm => hnc (by simp [hm])
    have h1 := stepA_count_flag σ e hne
    have h2 := ih hnc2 (stepA σ e).1
    have hsplit : (runA σ (e :: es)).2 = (stepA σ e).2 ++ (runA (stepA σ e).1 es).2 := rfl
    have hst : (runA σ (e :: es)).1 = (runA (stepA σ e).1 es).1 := rfl
    rw [hsplit, countSlackA_append, hst]
    omega

/-- The `VarA` close handler notifies Slack exactly when the flag is unset
and some record value is truthy. -/
theorem stepA_close_count (σ : AState) :
    countSlackA (stepA σ AEvent.twClose).2 =
      (if σ.allConfirmed = false ∧ anyTruthy σ.userData = true then 1 else 0) := by
  simp only [stepA]
  split <;> split <;> rfl

/-! ## Claim theorems -/

/-- C2: In every reachable state of a session (both the second `index.js`
program and `part_001`), the pending-marker queue is empty — no handler ever
enqueues a marker — so every `mark` frame is a no-op and no event sequence
ever makes the bridge send a truncate instruction to the AI session. -/
theorem markQueue_always_empty_no_truncate (es : List BEvent) (ps : List P1Event) :
    (runB initB es).1.pb.markQueue = [] ∧
    stepB (runB initB es).1 BEvent.twMark = ((runB initB es).1, []) ∧
    truncOutsB (runB initB es).2 = [] ∧
    (runP1 initP1 ps).1.pb.markQueue = [] ∧
    stepP1 (runP1 initP1 ps).1 P1Event.twMark = ((runP1 initP1 ps).1, []) ∧
    truncOutsP1 (runP1 initP1 ps).2 = [] := by
  obtain ⟨hb1, hb2⟩ := runB_empty_queue es initB rfl
  obtain ⟨hp1, hp2⟩ := runP1_empty_queue ps initP1 rfl
  refine ⟨hb1, ?_, hb2, hp1, ?_, hp2⟩
  · have hm : markStep (runB initB es).1.pb = (runB initB es).1.pb :=
      markStep_of_empty _ hb1
    simp [stepB, hm]
  · have hm : markStep (runP1 initP1 ps).1.pb = (runP1 initP1 ps).1.pb :=
      markStep_of_empty _ hp1
    simp [stepP1, hm]

/-- C1: For every session and every event sequence (both the second
`index.js` program and `part_001`), a speech-started event makes the bridge
send a truncate instruction iff the pending-marker queue is non-empty and a
playback-start timestamp is recorded at that moment; any instruction sent
references the active item id with content index 0, its audio truncation
point equals the cumulative caller-audio timestamp minus the recorded
playback-start timestamp, and is never negative.  (Both sides of the `iff`
are always false on reachable states: the marker queue is provably always
empty.) -/
theorem speech_started_truncation_iff (es : List BEvent) (ps : List P1Event) :
    ((truncOutsB (stepB (runB initB es).1 BEvent.aiSpeechStarted).2 ≠ []) ↔
      ((runB initB es).1.pb.markQueue ≠ [] ∧
       ((runB initB es).1.pb.responseStartTimestampTwilio).isSome = true)) ∧
    (truncOutsB (stepB (runB initB es).1 BEvent.aiSpeechStarted).2).all
      (fun m => (some m.item_id == (runB initB es).1.pb.lastAssistantItem) &&
        (m.content_index == 0) &&
        (m.audio_end_ms ==
          (runB initB es).1.pb.latestMediaTimestamp -
            ((runB initB es).1.pb.responseStartTimestampTwilio).getD 0) &&
        decide (0 ≤ m.audio_end_ms)) = true ∧
    ((truncOutsP1 (stepP1 (runP1 initP1 ps).1 P1Event.aiSpeechStarted).2 ≠ []) ↔
      ((runP1 initP1 ps).1.pb.markQueue ≠ [] ∧
       ((runP1 initP1 ps).1.pb.responseStartTimestampTwilio).isSome = true)) ∧
    (truncOutsP1 (stepP1 (runP1 initP1 ps).1 P1Event.aiSpeechStarted).2).all
      (fun m => (some m.item_id == (runP1 initP1 ps).1.pb.lastAssistantItem) &&
        (m.content_index == 0) &&
        (m.audio_end_ms ==
          (runP1 initP1 ps).1.pb.latestMediaTimestamp -
            ((runP1 initP1 ps).1.pb.responseStartTimestampTwilio).getD 0) &&
        decide (0 ≤ m.audio_end_ms)) = true := by
  obtain ⟨hb1, _⟩ := runB_empty_queue es initB rfl
  obtain ⟨hp1, _⟩ := runP1_empty_queue ps initP1 rfl
  have hsb : speechStartedStep (runB initB es).1.pb = ((runB initB es).1.pb, []) :=
    speechStartedStep_of_empty _ hb1
  have hsp : speechStartedStep (runP1 initP1 ps).1.pb = ((runP1 initP1 ps).1.pb, []) :=
    speechStartedStep_of_empty _ hp1
  have hob : (stepB (runB initB es).1 BEvent.aiSpeechStarted).2 = [] := by
    simp [stepB, hsb]
  have hop : (stepP1 (runP1 initP1 ps).1 P1Event.aiSpeechStarted).2 = [] := by
    simp [stepP1, hsp]
  refine ⟨?_, ?_, ?_, ?_⟩
  · rw [hob]; simp [truncOutsB, hb1]
  · rw [hob]; rfl
  · rw [hop]; simp [truncOutsP1, hp1]
  · rw [hop]; rfl

/-- C6: After the speech-started handler issues a truncate instruction, the
marker queue, the active item id, and the playback-start timestamp are all
cleared, and a second speech-started event in the resulting state issues no
further truncate instruction. -/
theorem truncation_clears_playback (pb : Playback)
    (h : (speechStartedStep pb).2 ≠ []) :
    (speechStartedStep pb).1.markQueue = [] ∧
    (speechStartedStep pb).1.lastAssistantItem = none ∧
    (speechStartedStep pb).1.responseStartTimestampTwilio = none ∧
    speechStartedStep (speechStartedStep pb).1 = ((speechStartedStep pb).1, []) := by
  by_cases hg : (!pb.markQueue.isEmpty && tsRecorded pb.responseStartTimestampTwilio) = true
  · have hstep : (speechStartedStep pb).1 =
        { pb with markQueue := [], lastAssistantItem := none,
                  responseStartTimestampTwilio := none } := by
      simp [speechStartedStep, hg]
    refine ⟨by rw [hstep], by rw [hstep], by rw [hstep], ?_⟩
    rw [hstep]
    exact speechStartedStep_of_empty _ rfl
  · exfalso
    apply h
    simp [speechStartedStep, hg]

/-- Witness for C6 at a concrete playback state with an outstanding marker,
a recorded playback start of 4 ms and cumulative timestamp 10 ms. -/
theorem truncation_clears_playback_witness :
    (speechStartedStep ⟨10, some "I1", ["m"], some 4⟩).2 ≠ [] ∧
    ((speechStartedStep ⟨10, some "I1", ["m"], some 4⟩).1.markQueue = [] ∧
     (speechStartedStep ⟨10, some "I1", ["m"], some 4⟩).1.lastAssistantItem = none ∧
     (speechStartedStep ⟨10, some "I1", ["m"], some 4⟩).1.responseStartTimestampTwilio = none ∧
     speechStartedStep (speechStartedStep ⟨10, some "I1", ["m"], some 4⟩).1 =
       ((speechStartedStep ⟨10, some "I1", ["m"], some 4⟩).1, [])) :=
  ⟨by decide, truncation_clears_playback ⟨10, some "I1", ["m"], some 4⟩ (by decide)⟩

/-- C10: A recorded playback-start timestamp of 0 is indistinguishable from
unset: an audio delta arriving with the playback-start unset while the
cumulative timestamp is 0 records 0; any audio delta arriving while the
recorded value is 0 overwrites it with the current cumulative timestamp; and
a speech-started event arriving while the recorded value is 0 is a complete
no-op — no truncate instruction and no state change — even with a non-empty
marker queue and a truthy active item id. -/
theorem zero_playback_start_treated_as_unset (pb pb0 : Playback) (i i0 : Option String)
    (h00 : pb0.responseStartTimestampTwilio = none)
    (ht0 : pb0.latestMediaTimestamp = 0)
    (h0 : pb.responseStartTimestampTwilio = some 0)
    (hq : pb.markQueue ≠ [])
    (hi : itemTruthy pb.lastAssistantItem = true) :
    (audioDeltaTrack pb0 i0).responseStartTimestampTwilio = some 0 ∧
    (audioDeltaTrack pb i).responseStartTimestampTwilio = some pb.latestMediaTimestamp ∧
    speechStartedStep pb = (pb, []) := by
  have htr0 : tsRecorded pb0.responseStartTimestampTwilio = false := by
    rw [h00]; rfl
  have htr : tsRecorded pb.responseStartTimestampTwilio = false := by
    rw [h0]; decide
  refine ⟨?_, ?_, ?_⟩
  · simp only [audioDeltaTrack, htr0]
    split <;> simp [ht0]
  · simp only [audioDeltaTrack, htr]
    split <;> simp
  · simp [speechStartedStep, htr]

/-- Witness for C10 at concrete playback states. -/
theorem zero_playback_start_treated_as_unset_witness :
    ((⟨0, none, [], none⟩ : Playback).responseStartTimestampTwilio = none ∧
     (⟨0, none, [], none⟩ : Playback).latestMediaTimestamp = 0 ∧
     (⟨7, some "I1", ["m"], some 0⟩ : Playback).responseStartTimestampTwilio = some 0 ∧
     (⟨7, some "I1", ["m"], some 0⟩ : Playback).markQueue ≠ [] ∧
     itemTruthy (⟨7, some "I1", ["m"], some 0⟩ : Playback).lastAssistantItem = true) ∧
    ((audioDeltaTrack ⟨0, none, [], none⟩ (some "I1")).responseStartTimestampTwilio = some 0 ∧
     (audioDeltaTrack ⟨7, some "I1", ["m"], some 0⟩ (some "I2")).responseStartTimestampTwilio =
       some (⟨7, some "I1", ["m"], some 0⟩ : Playback).latestMediaTimestamp ∧
     speechStartedStep ⟨7, some "I1", ["m"], some 0⟩ = (⟨7, some "I1", ["m"], some 0⟩, [])) :=
  ⟨⟨rfl, rfl, rfl, by decide, rfl⟩,
   zero_playback_start_treated_as_unset ⟨7, some "I1", ["m"], some 0⟩ ⟨0, none, [], none⟩
     (some "I2") (some "I1") rfl rfl rfl (by decide) rfl⟩

/-- Counterexample for C7: a `start` event does not clear the active item id
(shown on a reachable trace of the second `index.js` program) and does not
empty the marker queue (shown on the `start` handler at a state with an
outstanding marker). -/
theorem start_does_not_clear_item_or_queue :
    (runB initB [BEvent.twMedia "p" 5, BEvent.aiAudioDelta "d" (some "I1"),
        BEvent.twStart "S2"]).1.pb.lastAssistantItem ≠ none ∧
    (stepB ⟨some "S1", ⟨7, some "I1", ["m"], some 3⟩, true⟩
        (BEvent.twStart "S2")).1.pb.markQueue ≠ [] := by
  decide

/-- C7 (amended): on every caller-side `start` event (second `index.js`
program and `part_001`), the session captures the new stream identifier,
resets the cumulative caller-audio timestamp to 0 and unsets the
playback-start timestamp, emitting nothing; the active item id and the
pending-marker queue are left unchanged, not cleared. -/
theorem start_event_resets (σb : BState) (σp : P1State) (sid1 sid2 : String) :
    (stepB σb (BEvent.twStart sid1)).1.streamSid = some sid1 ∧
    (stepB σb (BEvent.twStart sid1)).1.pb.latestMediaTimestamp = 0 ∧
    (stepB σb (BEvent.twStart sid1)).1.pb.responseStartTimestampTwilio = none ∧
    (stepB σb (BEvent.twStart sid1)).1.pb.lastAssistantItem = σb.pb.lastAssistantItem ∧
    (stepB σb (BEvent.twStart sid1)).1.pb.markQueue = σb.pb.markQueue ∧
    (stepB σb (BEvent.twStart sid1)).2 = [] ∧
    (stepP1 σp (P1Event.twStart sid2)).1.streamSid = some sid2 ∧
    (stepP1 σp (P1Event.twStart sid2)).1.pb.latestMediaTimestamp = 0 ∧
    (stepP1 σp (P1Event.twStart sid2)).1.pb.responseStartTimestampTwilio = none ∧
    (stepP1 σp (P1Event.twStart sid2)).1.pb.lastAssistantItem = σp.pb.lastAssistantItem ∧
    (stepP1 σp (P1Event.twStart sid2)).1.pb.markQueue = σp.pb.markQueue ∧
    (stepP1 σp (P1Event.twStart sid2)).2 = [] :=
  ⟨rfl, rfl, rfl, rfl, rfl, rfl, rfl, rfl, rfl, rfl, rfl, rfl⟩

/-- Counterexample for C4: a single extraction whose fragment carries all
five recognized keys with non-empty values plus an extra `"note": null` key
leaves a record in which every one of the five keys holds a non-empty value,
yet the code judges the record incomplete — the spread keeps the extra key
and `Object.values(...).every` sees its `null`. -/
theorem extra_key_blocks_completeness :
    specFiveFilled (extractDelta
      "\x7b\"name\":\"a\",\"email\":\"b\",\"problem\":\"c\",\"time\":\"d\",\"tcp\":\"e\",\"note\":null\x7d"
      initUserData) = true ∧
    allFilled (extractDelta
      "\x7b\"name\":\"a\",\"email\":\"b\",\"problem\":\"c\",\"time\":\"d\",\"tcp\":\"e\",\"note\":null\x7d"
      initUserData) = false := by
  decide

/-- C4 (amended): over any sequence of merged extraction results whose keys
are among the five recognized keys, the record keeps exactly the five keys;
the value at each key is the last value written for it (last-write-wins,
regardless of how many extraction events contributed and of arrival order);
and the record is judged complete iff each of the five keys' last-written
value is truthy (non-empty), which coincides with the spec's five-field
completeness reading.  (When a fragment carries an unrecognized key, the key
is added to the record and participates in the check — see the
counterexample.) -/
theorem completeness_last_write_characterization
    (os : List (List (String × JsVal)))
    (hk : ∀ o ∈ os, ∀ kv ∈ o, kv.1 ∈ recognizedKeys) :
    (mergeAll initUserData os).map Prod.fst = recognizedKeys ∧
    (∀ k : String, jsLookup k (mergeAll initUserData os) =
        jsOr (lastWrite k os) (jsLookup k initUserData)) ∧
    allFilled (mergeAll initUserData os) =
      recognizedKeys.all (fun k => truthy ((lastWrite k os).getD .jnull)) ∧
    allFilled (mergeAll initUserData os) = specFiveFilled (mergeAll initUserData os) := by
  have hkeys0 : initUserData.map Prod.fst = recognizedKeys := by decide
  have hk2 : ∀ o ∈ os, ∀ kv ∈ o, kv.1 ∈ initUserData.map Prod.fst := by
    intro o ho kv hkv
    rw [hkeys0]
    exact hk o ho kv hkv
  have hkeys : (mergeAll initUserData os).map Prod.fst = recognizedKeys := by
    rw [keys_mergeAll os initUserData hk2, hkeys0]
  have hlook : ∀ k : String, jsLookup k (mergeAll initUserData os) =
      jsOr (lastWrite k os) (jsLookup k initUserData) := by
    intro k
    simpa [jsLookup] using lookup_mergeAll k os initUserData
  have hnd : ((mergeAll initUserData os).map Prod.fst).Nodup := by
    rw [hkeys]; decide
  have hvals := all_values_eq_all_keys truthy (mergeAll initUserData os) hnd
  rw [hkeys] at hvals
  have hgetD : ∀ a : Option JsVal,
      (jsOr a (some JsVal.jnull)).getD JsVal.jnull = a.getD JsVal.jnull := by
    intro a; cases a <;> rfl
  refine ⟨hkeys, hlook, ?_, ?_⟩
  · calc allFilled (mergeAll initUserData os)
        = recognizedKeys.all
            (fun k => truthy ((List.lookup k (mergeAll initUserData os)).getD .jnull)) :=
          hvals
      _ = recognizedKeys.all (fun k => truthy ((lastWrite k os).getD .jnull)) := by
          apply all_congr_mem
          intro k hkmem
          have h1 := hlook k
          simp only [jsLookup] at h1
          have h2 : List.lookup k initUserData = some JsVal.jnull := by
            fin_cases hkmem <;> rfl
          rw [h1, h2, hgetD]
  · exact hvals

/-- Witness for C4 at a concrete two-event extraction sequence in which the
`name` key is written twice. -/
theorem completeness_last_write_characterization_witness :
    (∀ o ∈ [[("email", JsVal.jstr "b")],
            [("name", JsVal.jstr "a"), ("name", JsVal.jstr "a2")]],
       ∀ kv ∈ o, kv.1 ∈ recognizedKeys) ∧
    ((mergeAll initUserData [[("email", JsVal.jstr "b")],
        [("name", JsVal.jstr "a"), ("name", JsVal.jstr "a2")]]).map Prod.fst =
          recognizedKeys ∧
     (∀ k : String, jsLookup k (mergeAll initUserData [[("email", JsVal.jstr "b")],
         [("name", JsVal.jstr "a"), ("name", JsVal.jstr "a2")]]) =
        jsOr (lastWrite k [[("email", JsVal.jstr "b")],
          [("name", JsVal.jstr "a"), ("name", JsVal.jstr "a2")]])
          (jsLookup k initUserData)) ∧
     allFilled (mergeAll initUserData [[("email", JsVal.jstr "b")],
         [("name", JsVal.jstr "a"), ("name", JsVal.jstr "a2")]]) =
       recognizedKeys.all (fun k => truthy ((lastWrite k
         [[("email", JsVal.jstr "b")],
          [("name", JsVal.jstr "a"), ("name", JsVal.jstr "a2")]]).getD .jnull)) ∧
     allFilled (mergeAll initUserData [[("email", JsVal.jstr "b")],
         [("name", JsVal.jstr "a"), ("name", JsVal.jstr "a2")]]) =
       specFiveFilled (mergeAll initUserData [[("email", JsVal.jstr "b")],
         [("name", JsVal.jstr "a"), ("name", JsVal.jstr "a2")]])) :=
  ⟨by decide,
   completeness_last_write_characterization
     [[("email", JsVal.jstr "b")], [("name", JsVal.jstr "a"), ("name", JsVal.jstr "a2")]]
     (by decide)⟩

/-- Counterexample for C5: a fragment whose JSON object holds only the
unrecognized key `"zzz"` changes the record — the spread adds the key rather
than ignoring it. -/
theorem unrecognized_key_merged_not_ignored :
    extractDelta "\x7b\"zzz\":\"v\"\x7d" initUserData ≠ initUserData := by
  decide

/-- C5 (amended): the extractor attempts a JSON parse only when the trimmed
fragment begins with an opening brace and ends with a closing brace; on
guard failure or on malformed JSON the record is unchanged; on a successful
object parse it spread-merges every key of the parsed object into the record
— recognized keys update their values in place, unrecognized keys are
appended — so the value at each key afterwards is the fragment's value when
the fragment carries the key, and the previous value otherwise. -/
theorem extractor_guard_merge_characterization
    (u : List (String × JsVal)) (s1 s2 s3 : String) (fs : List (String × JsVal))
    (h1 : jsonGuard s1 = false)
    (h2 : jsonGuard s2 = true) (h2p : parseJson (jsTrim s2) = none)
    (h3 : jsonGuard s3 = true) (h3p : parseJson (jsTrim s3) = some (JsTop.jobj fs)) :
    extractDelta s1 u = u ∧
    extractDelta s2 u = u ∧
    extractDelta s3 u = spreadMerge u fs ∧
    (∀ k : String, jsLookup k (extractDelta s3 u) = jsOr (jsLookup k fs) (jsLookup k u)) := by
  have he3 : extractDelta s3 u = spreadMerge u fs := by
    simp only [extractDelta]
    rw [show (strStartsWith (jsTrim s3) "\x7b" && strEndsWith (jsTrim s3) "\x7d") = true
          from h3]
    simp [h3p, spreadFields]
  refine ⟨?_, ?_, he3, ?_⟩
  · simp only [extractDelta]
    rw [show (strStartsWith (jsTrim s1) "\x7b" && strEndsWith (jsTrim s1) "\x7d") = false
          from h1]
    simp
  · simp only [extractDelta]
    rw [show (strStartsWith (jsTrim s2) "\x7b" && strEndsWith (jsTrim s2) "\x7d") = true
          from h2]
    simp [h2p]
  · intro k
    rw [he3]
    simpa [jsLookup] using lookup_spreadMerge k u fs

/-- Witness for C5 at three concrete fragments: a non-JSON fragment, a
brace-guarded malformed fragment, and a valid one-field object. -/
theorem extractor_guard_merge_characterization_witness :
    (jsonGuard "hello" = false ∧
     jsonGuard "\x7bbad\x7d" = true ∧
     parseJson (jsTrim "\x7bbad\x7d") = none ∧
     jsonGuard "\x7b\"name\":\"jo\"\x7d" = true ∧
     parseJson (jsTrim "\x7b\"name\":\"jo\"\x7d") =
       some (JsTop.jobj [("name", JsVal.jstr "jo")])) ∧
    (extractDelta "hello" initUserData = initUserData ∧
     extractDelta "\x7bbad\x7d" initUserData = initUserData ∧
     extractDelta "\x7b\"name\":\"jo\"\x7d" initUserData =
       spreadMerge initUserData [("name", JsVal.jstr "jo")] ∧
     (∀ k : String, jsLookup k (extractDelta "\x7b\"name\":\"jo\"\x7d" initUserData) =
        jsOr (jsLookup k [("name", JsVal.jstr "jo")]) (jsLookup k initUserData))) :=
  ⟨⟨by decide, by decide, by decide, by decide, by decide⟩,
   extractor_guard_merge_characterization initUserData "hello" "\x7bbad\x7d"
     "\x7b\"name\":\"jo\"\x7d" [("name", JsVal.jstr "jo")]
     (by decide) (by decide) (by decide) (by decide) (by decide)⟩

/-- Counterexample for C3: in `part_001` the `response.completed` handler
has no completion flag, so two completed events — each carrying the full
five-field record — produce two Slack handoffs in one session. -/
theorem part001_double_handoff :
    countSlackP1 (runP1 initP1
      [P1Event.aiCompleted true
         (some "\x7b\"name\":\"a\",\"email\":\"b\",\"problem\":\"c\",\"time\":\"d\",\"tcp\":\"e\"\x7d"),
       P1Event.aiCompleted true
         (some "\x7b\"name\":\"a\",\"email\":\"b\",\"problem\":\"c\",\"time\":\"d\",\"tcp\":\"e\"\x7d")]).2 = 2 := by
  decide

/-- C3 (amended): in the first `index.js` program (which maintains the
`allConfirmed` flag), the Slack handoff occurs at most once per session —
over any event sequence with the caller disconnect, if any, as its last
event — the flag is monotonic false-to-true and never reset, and once it is
set no event (completion-triggering or disconnect) emits another handoff.
In `part_001` the `response.completed` handler carries no flag and hands off
on every completed event (see the counterexample). -/
theorem varA_handoff_at_most_once (es : List AEvent) (σ : AState) (e : AEvent)
    (hnc : AEvent.twClose ∉ es) (hflag : σ.allConfirmed = true) :
    countSlackA (runA initA es).2 ≤ 1 ∧
    countSlackA (runA initA (es ++ [AEvent.twClose])).2 ≤ 1 ∧
    (stepA σ e).1.allConfirmed = true ∧
    countSlackA (stepA σ e).2 = 0 := by
  have h1 := runA_count_flag es hnc initA
  have hce : countSlackA (runA initA es).2 =
      (if (runA initA es).1.allConfirmed then 1 else 0) := by
    simpa [initA] using h1
  have hpair : (stepA σ e).1.allConfirmed = true ∧ countSlackA (stepA σ e).2 = 0 := by
    cases e with
    | aiMsg ty d =>
      exact ⟨by simp [stepA, hflag], by simp [stepA, hflag, countSlackA_media_ite]⟩
    | twStart sid => exact ⟨by simp [stepA, hflag], rfl⟩
    | twMedia p =>
      refine ⟨by simp [stepA, hflag], ?_⟩
      simp only [stepA]
      split <;> rfl
    | twOther ev => exact ⟨by simp [stepA, hflag], rfl⟩
    | twClose =>
      refine ⟨by simp [stepA, hflag], ?_⟩
      rw [stepA_close_count]
      simp [hflag]
  refine ⟨?_, ?_, hpair.1, hpair.2⟩
  · rw [hce]
    split <;> omega
  · rw [runA_append es [AEvent.twClose] initA]
    have hco : (runA (runA initA es).1 [AEvent.twClose]).2 =
        (stepA (runA initA es).1 AEvent.twClose).2 ++ [] := rfl
    simp only [hco, List.append_nil]
    rw [countSlackA_append, hce, stepA_close_count]
    cases hf : (runA initA es).1.allConfirmed <;>
      cases hany : anyTruthy (runA initA es).1.userData <;>
        simp [hf, hany]

/-- Witness for C3 on a concrete session: one extraction event completing
the record, followed by the caller disconnect, and a separate flagged state
hit by a further completed-type message. -/
theorem varA_handoff_at_most_once_witness :
    (AEvent.twClose ∉
       [AEvent.aiMsg "response.output_text.delta"
          (some "\x7b\"name\":\"a\",\"email\":\"b\",\"problem\":\"c\",\"time\":\"d\",\"tcp\":\"e\"\x7d")]) ∧
    (⟨none, initUserData, true, true⟩ : AState).allConfirmed = true ∧
    (countSlackA (runA initA
       [AEvent.aiMsg "response.output_text.delta"
          (some "\x7b\"name\":\"a\",\"email\":\"b\",\"problem\":\"c\",\"time\":\"d\",\"tcp\":\"e\"\x7d")]).2 ≤ 1 ∧
     countSlackA (runA initA
       ([AEvent.aiMsg "response.output_text.delta"
          (some "\x7b\"name\":\"a\",\"email\":\"b\",\"problem\":\"c\",\"time\":\"d\",\"tcp\":\"e\"\x7d")] ++
        [AEvent.twClose])).2 ≤ 1 ∧
     (stepA ⟨none, initUserData, true, true⟩ (AEvent.aiMsg "response.completed" none)).1.allConfirmed = true ∧
     countSlackA (stepA ⟨none, initUserData, true, true⟩
       (AEvent.aiMsg "response.completed" none)).2 = 0) :=
  ⟨by decide, rfl,
   varA_handoff_at_most_once
     [AEvent.aiMsg "response.output_text.delta"
        (some "\x7b\"name\":\"a\",\"email\":\"b\",\"problem\":\"c\",\"time\":\"d\",\"tcp\":\"e\"\x7d")]
     ⟨none, initUserData, true, true⟩ (AEvent.aiMsg "response.completed" none)
     (by decide) rfl⟩

/-- Counterexample for C8: in `part_000` a session whose record has the
`name` field set receives zero Slack calls on disconnect (its close handler
performs no handoff), while in the first `index.js` program a session whose
record has none of the five fields set — only a merged extra key — receives
one Slack call on disconnect. -/
theorem disconnect_partial_handoff_cex :
    countSlackP0 (runP0 initP0
      [P0Event.aiMsg "response.output_text.delta" (some "\x7b\"name\":\"jo\"\x7d"),
       P0Event.twClose]).2 = 0 ∧
    specAnyFiveSet (runP0 initP0
      [P0Event.aiMsg "response.output_text.delta" (some "\x7b\"name\":\"jo\"\x7d"),
       P0Event.twClose]).1.userData = true ∧
    (runP0 initP0
      [P0Event.aiMsg "response.output_text.delta" (some "\x7b\"name\":\"jo\"\x7d"),
       P0Event.twClose]).1.allConfirmed = false ∧
    countSlackA (runA initA
      [AEvent.aiMsg "response.output_text.delta" (some "\x7b\"note\":\"x\"\x7d"),
       AEvent.twClose]).2 = 1 ∧
    specAnyFiveSet (runA initA
      [AEvent.aiMsg "response.output_text.delta" (some "\x7b\"note\":\"x\"\x7d"),
       AEvent.twClose]).1.userData = false ∧
    (runA initA
      [AEvent.aiMsg "response.output_text.delta" (some "\x7b\"note\":\"x\"\x7d"),
       AEvent.twClose]).1.allConfirmed = false := by
  decide

/-- C8 (amended): in the first `index.js` program, on caller disconnect with
the completion flag still false the record is submitted to the sink iff at
least one value in the record — a five-field value or a merged extra key —
is truthy; the close handler emits no farewell and schedules no close; a
session whose record never gains a truthy value and whose flag stays false
produces zero sink calls in total.  In `part_000` the close handler performs
no handoff at all. -/
theorem disconnect_partial_handoff (σ : AState) (σ0 : P0State) (es : List AEvent)
    (hflag : σ.allConfirmed = false)
    (hnc : AEvent.twClose ∉ es)
    (hf2 : (runA initA es).1.allConfirmed = false)
    (hne : anyTruthy (runA initA es).1.userData = false) :
    countSlackA (stepA σ AEvent.twClose).2 =
      (if anyTruthy σ.userData = true then 1 else 0) ∧
    (stepA σ AEvent.twClose).2.all (fun o => !(farewellOrScheduleA o)) = true ∧
    countSlackP0 (stepP0 σ0 P0Event.twClose).2 = 0 ∧
    countSlackA (runA initA (es ++ [AEvent.twClose])).2 = 0 := by
  refine ⟨?_, ?_, ?_, ?_⟩
  · rw [stepA_close_count]
    simp [hflag]
  · simp only [stepA]
    split <;> split <;> rfl
  · simp only [stepP0]
    split <;> rfl
  · have h1 := runA_count_flag es hnc initA
    have hce : countSlackA (runA initA es).2 =
        (if (runA initA es).1.allConfirmed then 1 else 0) := by
      simpa [initA] using h1
    have hce0 : countSlackA (runA initA es).2 = 0 := by
      simpa [hf2] using hce
    rw [runA_append es [AEvent.twClose] initA]
    have hco : (runA (runA initA es).1 [AEvent.twClose]).2 =
        (stepA (runA initA es).1 AEvent.twClose).2 ++ [] := rfl
    simp only [hco, List.append_nil]
    rw [countSlackA_append, hce0, stepA_close_count]
    simp [hf2, hne]

/-- Witness for C8 on concrete states: a fresh unconfirmed session and an
untouched close-free run. -/
theorem disconnect_partial_handoff_witness :
    ((⟨none, initUserData, false, true⟩ : AState).allConfirmed = false ∧
     AEvent.twClose ∉ ([] : List AEvent) ∧
     (runA initA ([] : List AEvent)).1.allConfirmed = false ∧
     anyTruthy (runA initA ([] : List AEvent)).1.userData = false) ∧
    (countSlackA (stepA ⟨none, initUserData, false, true⟩ AEvent.twClose).2 =
       (if anyTruthy (⟨none, initUserData, false, true⟩ : AState).userData = true
        then 1 else 0) ∧
     (stepA ⟨none, initUserData, false, true⟩ AEvent.twClose).2.all
       (fun o => !(farewellOrScheduleA o)) = true ∧
     countSlackP0 (stepP0 initP0 P0Event.twClose).2 = 0 ∧
     countSlackA (runA initA (([] : List AEvent) ++ [AEvent.twClose])).2 = 0) :=
  ⟨⟨rfl, by decide, rfl, by decide⟩,
   disconnect_partial_handoff ⟨none, initUserData, false, true⟩ initP0 []
     rfl (by decide) rfl (by decide)⟩

/-- Counterexample for C9: the startup check of the second `index.js`
program does not exit when the notification endpoint URL is absent — only
the speech-AI credential is required there. -/
theorem varB_startup_ignores_hook :
    startupFatalVarB (some "sk-test") none = false ∧
    optTruthy (none : Option String) = false := by
  decide

/-- C9 (amended): absence (or emptiness) of the speech-AI credential is
fatal at startup in all three checked programs; absence of the notification
endpoint URL is fatal in the programs that use the notification sink (first
`index.js` program and `part_001`; `part_000` is identical to the former)
but not in the second `index.js` program, which performs no notification;
startup with both values present and non-empty does not exit. -/
theorem startup_env_check_characterization
    (k u k2 u2 k3 u3 : Option String)
    (hk : optTruthy k = false)
    (h2k : optTruthy k2 = true) (h2u : optTruthy u2 = true)
    (h3u : optTruthy u3 = false) :
    startupFatalVarA k u = true ∧ startupFatalP1 k u = true ∧
    startupFatalVarB k u = true ∧
    startupFatalVarA k3 u3 = true ∧ startupFatalP1 k3 u3 = true ∧
    startupFatalVarA k2 u2 = false ∧ startupFatalP1 k2 u2 = false ∧
    startupFatalVarB k2 u2 = false := by
  simp [startupFatalVarA, startupFatalP1, startupFatalVarB, hk, h2k, h2u, h3u]

/-- Witness for C9 at concrete environment values. -/
theorem startup_env_check_characterization_witness :
    (optTruthy (none : Option String) = false ∧
     optTruthy (some "sk-test") = true ∧ optTruthy (some "https://hooks.example") = true ∧
     optTruthy (none : Option String) = false) ∧
    (startupFatalVarA none (some "https://hooks.example") = true ∧
     startupFatalP1 none (some "https://hooks.example") = true ∧
     startupFatalVarB none (some "https://hooks.example") = true ∧
     startupFatalVarA (some "sk-test") none = true ∧
     startupFatalP1 (some "sk-test") none = true ∧
     startupFatalVarA (some "sk-test") (some "https://hooks.example") = false ∧
     startupFatalP1 (some "sk-test") (some "https://hooks.example") = false ∧
     startupFatalVarB (some "sk-test") (some "https://hooks.example") = false) :=
  ⟨⟨rfl, rfl, rfl, rfl⟩,
   startup_env_check_characterization none (some "https://hooks.example")
     (some "sk-test") (some "https://hooks.example") (some "sk-test") none
     rfl rfl rfl rfl⟩
